import Mathlib

/-!
Verification of the TripLog repository (a Django travel-spot sharing app)
against its natural-language specification.

The development shallowly embeds the parts of the program the claims are
about.  Database tables become lists of row structures, Django ORM queries
become list operations, timestamps and float-valued quantities become
rationals, and the network becomes an explicit outcome parameter.  Every
definition is transcribed from the corresponding source function, named
after it where Lean allows.
-/

/- ===================================================================
   Shared data model (src/spots/models.py)
   =================================================================== -/

/-- A row of the `UserSpotInteraction` table (src/spots/models.py):
per-(user, spot) aggregated analytics.  `totalViewDurationSeconds` embeds
the `DurationField` in seconds, `lastViewedAt` the `DateTimeField` as a
rational timestamp. -/
structure InteractionRow where
  userId : ℤ
  spotId : ℤ
  viewCount : ℕ
  totalViewDurationSeconds : ℚ
  lastViewedAt : ℚ
deriving DecidableEq, Repr

/-- The authenticated-or-not request user, as the service layer sees it
(`getattr(user, 'is_authenticated', False)` plus the primary key). -/
structure UserRec where
  id : ℤ
  isAuthenticated : Bool
deriving DecidableEq, Repr

/-- A row of the `Spot` table, restricted to the fields the embedded
operations read (`id` and `created_at`). -/
structure SpotRec where
  id : ℤ
  createdAt : ℚ
deriving DecidableEq, Repr

/-- A row of the `SpotView` table: one page-view log entry. -/
structure SpotViewRec where
  spotId : ℤ
  viewedAt : ℚ
deriving DecidableEq, Repr

/- ===================================================================
   C1: fallback recommendation score
   (src/spots/services/analytics.py, `_compute_fallback_score`)
   =================================================================== -/

/-- `_compute_fallback_score(interaction)` from
src/spots/services/analytics.py, with `timezone.now()` made an explicit
parameter:

    duration_seconds = interaction.total_view_duration.total_seconds()
    duration_minutes = duration_seconds / 60.0
    view_bonus = interaction.view_count * 2.0
    recency_delta = timezone.now() - interaction.last_viewed_at
    recency_days = max(recency_delta.total_seconds() / 86400.0, 0.0)
    recency_bonus = max(0.0, 3.0 - (recency_days / 10.0))
    duration_bonus = min(duration_minutes, 60.0) * 0.5
    return view_bonus + recency_bonus + duration_bonus
-/
def computeFallbackScore (now : ℚ) (interaction : InteractionRow) : ℚ :=
  let durationMinutes := interaction.totalViewDurationSeconds / 60
  let viewBonus := (interaction.viewCount : ℚ) * 2
  let recencyDays := max ((now - interaction.lastViewedAt) / 86400) 0
  let recencyBonus := max (3 - recencyDays / 10) 0
  let durationBonus := min durationMinutes 60 * (1 / 2)
  viewBonus + recencyBonus + durationBonus

/- ===================================================================
   C3: recommendation-job scheduling check
   (src/spots/services/recommendation_jobs.py, `is_job_due`)
   =================================================================== -/

/-- A row of the `RecommendationJobSetting` table, restricted to the
fields `is_job_due` reads: `enabled`, `interval_hours`, `last_run_at`. -/
structure RecommendationJobSetting where
  enabled : Bool
  intervalHours : ℕ
  lastRunAt : Option ℚ
deriving DecidableEq, Repr

/-- `is_job_due(setting, now)` from
src/spots/services/recommendation_jobs.py:

    if not setting.enabled: return False
    if setting.last_run_at is None: return True
    elapsed = now - setting.last_run_at
    return elapsed.total_seconds() >= setting.interval_hours * 3600

The embedding is a pure function of exactly `setting.enabled`,
`setting.last_run_at`, `setting.interval_hours` and `now`; the source
reads no other data and performs no writes. -/
def is_job_due (setting : RecommendationJobSetting) (now : ℚ) : Bool :=
  if !setting.enabled then false
  else
    match setting.lastRunAt with
    | none => true
    | some lastRun => decide ((setting.intervalHours : ℚ) * 3600 ≤ now - lastRun)

/- ===================================================================
   C4: weekly view-count ranking (src/spots/views.py, `ranking`)
   =================================================================== -/

/-- Insert `x` into `l` before the first element `y` with `le x y`.
With a non-strict "may come before" relation this is the stable
insertion step matching Python's stable sort. -/
def insertSorted {α : Type} (le : α → α → Bool) (x : α) : List α → List α
  | [] => [x]
  | y :: ys => if le x y then x :: y :: ys else y :: insertSorted le x ys

/-- Stable insertion sort by a Boolean "may come before" relation. -/
def sortByKey {α : Type} (le : α → α → Bool) : List α → List α
  | [] => []
  | x :: xs => insertSorted le x (sortByKey le xs)

/-- The `weekly_views` annotation of the `ranking` view
(src/spots/views.py): the number of `SpotView` rows for this spot whose
`viewed_at` is at least `week_ago = now - 7 days`. -/
def weeklyViews (now : ℚ) (views : List SpotViewRec) (spot : SpotRec) : ℕ :=
  (views.filter
    (fun v => v.spotId == spot.id && decide (now - 7 * 86400 ≤ v.viewedAt))).length

/-- The ordering used by `order_by('-weekly_views', '-created_at')`:
`a` may be listed before `b` iff `a` has strictly more weekly views, or
equally many and an at-least-as-recent `created_at`. -/
def rankBefore (now : ℚ) (views : List SpotViewRec) (a b : SpotRec) : Bool :=
  decide (weeklyViews now views b < weeklyViews now views a
    ∨ (weeklyViews now views a = weeklyViews now views b ∧ b.createdAt ≤ a.createdAt))

/-- The queryset of the `ranking` view (src/spots/views.py):

    week_ago = timezone.now() - timedelta(days=7)
    ranked_spots = (Spot.objects.all()
        .annotate(weekly_views=Count('spot_views',
            filter=Q(spot_views__viewed_at__gte=week_ago)))
        .filter(weekly_views__gt=0)
        .order_by('-weekly_views', '-created_at'))
    context = {'ranked_spots': ranked_spots[:7], ...}
-/
def ranking (now : ℚ) (spots : List SpotRec) (views : List SpotViewRec) : List SpotRec :=
  (sortByKey (rankBefore now views)
      (spots.filter (fun s => decide (0 < weeklyViews now views s)))).take 7

/- ===================================================================
   C5: staff-only admin dashboard (src/spots/admin_views.py,
   `StaffRequiredMixin`, and src/spots/urls.py `/manage/...` routes)
   =================================================================== -/

/-- The request user as seen by the access-control mixins. -/
structure RequestUser where
  isAuthenticated : Bool
  isStaff : Bool
deriving DecidableEq, Repr

/-- Outcome of dispatching a request through the mixin chain.
`notFound` is the `Http404` raised by `get_object_or_404` in the two
user-admin views that resolve their target object before the access
checks run. -/
inductive DispatchOutcome where
  | redirectLogin
  | redirectHome
  | handled
  | notFound
deriving DecidableEq, Repr

/-- The dispatch behaviour of `StaffRequiredMixin(LoginRequiredMixin,
UserPassesTestMixin)` from src/spots/admin_views.py, following Django's
documented mixin semantics: `LoginRequiredMixin.dispatch` redirects an
unauthenticated user via `handle_no_permission` (the override falls
through to the login redirect because the user is not authenticated);
`UserPassesTestMixin.dispatch` then evaluates `test_func`, i.e.
`request.user.is_staff`, and on failure the overridden
`handle_no_permission` shows an error message and redirects to `home`
for the (authenticated) user.  Only when both checks pass does the
actual view handler run.  This is the dispatch of every `/manage/...`
view that does not override `dispatch`; `UserAdminDetailView` and
`UserAdminPasswordChangeView` prepend an object lookup, see
`userObjectDispatch`.  (`AdminPermissionRequiredMixin` additionally
checks Django permissions, which can only further restrict staff
users and is abstracted away here.) -/
def staffRequiredDispatch (user : RequestUser) : DispatchOutcome :=
  if !user.isAuthenticated then DispatchOutcome.redirectLogin
  else if !user.isStaff then DispatchOutcome.redirectHome
  else DispatchOutcome.handled

/-- One `/manage/...` URL route of the custom admin dashboard
(src/spots/urls.py), with the view class it dispatches to, whether
that class inherits `StaffRequiredMixin` (directly or through
`AdminPermissionRequiredMixin`, which extends it), and whether the
class overrides `dispatch` to resolve its target object with
`get_object_or_404` before calling `super().dispatch()`
(src/spots/admin_views.py lines 445-447 and 496-498). -/
structure AdminRoute where
  urlName : String
  viewClass : String
  staffRequired : Bool
  resolvesObjectFirst : Bool
deriving DecidableEq, Repr

/-- The overridden `dispatch` of `UserAdminDetailView` and
`UserAdminPasswordChangeView` (src/spots/admin_views.py):

    def dispatch(self, request, *args, **kwargs):
        self.user_obj = get_object_or_404(User, pk=kwargs["pk"])
        return super().dispatch(request, *args, **kwargs)

`get_object_or_404` runs before any login/staff check, so a request
for a nonexistent pk gets `Http404` regardless of the requester;
only then does the mixin chain run. -/
def userObjectDispatch (userExists : Bool) (user : RequestUser) :
    DispatchOutcome :=
  if !userExists then DispatchOutcome.notFound
  else staffRequiredDispatch user

/-- The dispatch of one `/manage/...` route: the two user-admin views
resolve their object first, every other route is the plain
`StaffRequiredMixin` chain (for which `userExists` is irrelevant). -/
def routeDispatch (route : AdminRoute) (userExists : Bool)
    (user : RequestUser) : DispatchOutcome :=
  if route.resolvesObjectFirst then userObjectDispatch userExists user
  else staffRequiredDispatch user

/-- All custom admin dashboard routes from src/spots/urls.py (the
`/manage/...` block), each tagged with its view class from
src/spots/admin_views.py and whether that class passes through
`StaffRequiredMixin`. -/
def adminRoutes : List AdminRoute :=
  [ ⟨r"admin_dashboard", r"AdminDashboardView", true, false⟩,
    ⟨r"admin_spot_list", r"SpotAdminListView", true, false⟩,
    ⟨r"admin_spot_add", r"SpotAdminCreateView", true, false⟩,
    ⟨r"admin_spot_edit", r"SpotAdminUpdateView", true, false⟩,
    ⟨r"admin_spot_delete", r"SpotAdminDeleteView", true, false⟩,
    ⟨r"admin_tag_list", r"TagAdminListView", true, false⟩,
    ⟨r"admin_tag_add", r"TagAdminCreateView", true, false⟩,
    ⟨r"admin_tag_edit", r"TagAdminUpdateView", true, false⟩,
    ⟨r"admin_tag_delete", r"TagAdminDeleteView", true, false⟩,
    ⟨r"admin_review_list", r"ReviewAdminListView", true, false⟩,
    ⟨r"admin_review_add", r"ReviewAdminCreateView", true, false⟩,
    ⟨r"admin_review_edit", r"ReviewAdminUpdateView", true, false⟩,
    ⟨r"admin_review_delete", r"ReviewAdminDeleteView", true, false⟩,
    ⟨r"admin_user_list", r"UserAdminListView", true, false⟩,
    ⟨r"admin_user_add", r"UserAdminCreateView", true, false⟩,
    ⟨r"admin_user_detail", r"UserAdminDetailView", true, true⟩,
    ⟨r"admin_user_password", r"UserAdminPasswordChangeView", true, true⟩,
    ⟨r"admin_group_list", r"GroupAdminListView", true, false⟩,
    ⟨r"admin_group_add", r"GroupAdminCreateView", true, false⟩,
    ⟨r"admin_group_edit", r"GroupAdminUpdateView", true, false⟩,
    ⟨r"admin_group_delete", r"GroupAdminDeleteView", true, false⟩,
    ⟨r"admin_profile_list", r"UserProfileAdminListView", true, false⟩,
    ⟨r"admin_spotview_list", r"SpotViewAdminListView", true, false⟩,
    ⟨r"admin_recommendation", r"RecommendationAdminView", true, false⟩,
    ⟨r"admin_recommendation_scores", r"RecommendationUserScoreListView", true, false⟩,
    ⟨r"admin_recommendation_logs", r"RecommendationJobLogListView", true, false⟩ ]

/- ===================================================================
   C8: view-duration accumulation
   (src/spots/services/interactions.py, `update_view_duration`)
   =================================================================== -/

/-- `UserSpotInteraction.objects.get_or_create(user=..., spot=...)`
lookup step: the first row matching the (user, spot) key. -/
def findInteraction (db : List InteractionRow) (userId spotId : ℤ) :
    Option InteractionRow :=
  db.find? (fun r => r.userId == userId && r.spotId == spotId)

/-- The user's stored `total_view_duration` for a spot, in seconds
(0 when no interaction row exists). -/
def totalViewDurationOf (db : List InteractionRow) (userId spotId : ℤ) : ℚ :=
  ((findInteraction db userId spotId).map
    (fun r => r.totalViewDurationSeconds)).getD 0

/-- `update_view_duration(spot, user, duration)` from
src/spots/services/interactions.py, with `timezone.now()` explicit:

    if not getattr(user, "is_authenticated", False): return
    normalized_duration = duration if duration > timedelta(0) else timedelta(0)
    interaction, created = UserSpotInteraction.objects.get_or_create(
        user=user, spot=spot,
        defaults={"view_count": 1, "total_view_duration": normalized_duration})
    if created or normalized_duration == timedelta(0): return
    UserSpotInteraction.objects.filter(pk=interaction.pk).update(
        total_view_duration=F("total_view_duration") + normalized_duration,
        last_viewed_at=timezone.now())

Creation sets `last_viewed_at` to the current time (`auto_now`). -/
def updateViewDuration (now : ℚ) (db : List InteractionRow) (user : UserRec)
    (spotId : ℤ) (duration : ℚ) : List InteractionRow :=
  if !user.isAuthenticated then db
  else
    let normalized := if 0 < duration then duration else 0
    match findInteraction db user.id spotId with
    | none => db ++ [⟨user.id, spotId, 1, normalized, now⟩]
    | some _ =>
      if normalized = 0 then db
      else db.map (fun r =>
        if r.userId == user.id && r.spotId == spotId then
          { r with
              totalViewDurationSeconds := r.totalViewDurationSeconds + normalized,
              lastViewedAt := now }
        else r)

/- ===================================================================
   C9: favorite toggling
   (src/spots/services/interactions.py, `toggle_favorite_spot`)
   =================================================================== -/

/-- A row of the `UserProfile` table restricted to what
`toggle_favorite_spot` touches: the owning user and the
`favorite_spots` many-to-many relation, embedded as the list of
favorited spot ids. -/
structure ProfileRow where
  userId : ℤ
  favorites : List ℤ
deriving DecidableEq, Repr

/-- `UserProfile.objects.get_or_create(user=user)` lookup step. -/
def findProfile (db : List ProfileRow) (userId : ℤ) : Option ProfileRow :=
  db.find? (fun p => p.userId == userId)

/-- The set of spots the user has favorited (empty when the profile row
does not exist yet). -/
def favoritesOf (db : List ProfileRow) (userId : ℤ) : List ℤ :=
  ((findProfile db userId).map (fun p => p.favorites)).getD []

/-- `profile.favorite_spots.remove(spot)`: drop every relation row for
this spot from the profile owned by `uid`. -/
def removeFavorite (uid spotId : ℤ) (q : ProfileRow) : ProfileRow :=
  if q.userId == uid then
    { q with favorites := q.favorites.filter (fun y => !(y == spotId)) }
  else q

/-- `profile.favorite_spots.add(spot)`: add the relation row to the
profile owned by `uid` (only called when the spot is not yet a
favorite). -/
def addFavorite (uid spotId : ℤ) (q : ProfileRow) : ProfileRow :=
  if q.userId == uid then { q with favorites := q.favorites ++ [spotId] }
  else q

/-- `toggle_favorite_spot(spot, user)` from
src/spots/services/interactions.py:

    if not getattr(user, "is_authenticated", False):
        raise ValueError("toggle_favorite_spot requires an authenticated user")
    profile, _ = UserProfile.objects.get_or_create(user=user)
    if profile.favorite_spots.filter(pk=spot.pk).exists():
        profile.favorite_spots.remove(spot); return False
    profile.favorite_spots.add(spot); return True

The raised `ValueError` is embedded as result `none` with the database
unchanged; `some b` is the returned Boolean together with the new
database state. -/
def toggleFavoriteSpot (db : List ProfileRow) (user : UserRec) (spotId : ℤ) :
    Option Bool × List ProfileRow :=
  if !user.isAuthenticated then (none, db)
  else
    match findProfile db user.id with
    | none => (some true, db ++ [⟨user.id, [spotId]⟩])
    | some p =>
      if spotId ∈ p.favorites then
        (some false, db.map (removeFavorite user.id spotId))
      else
        (some true, db.map (addFavorite user.id spotId))

/- ===================================================================
   C10: review constraints (src/spots/models.py `Review`,
   src/spots/views.py `add_review`, src/spots/api_views.py
   `add_review_api`, src/spots/admin_views.py review admin views,
   src/spots/forms.py `ReviewForm` / `ReviewAdminForm`)
   =================================================================== -/

/-- A row of the `Review` table restricted to the constrained fields:
primary key, the `unique_together ['spot', 'user']` key, and the
validated `rating`. -/
structure ReviewRow where
  id : ℤ
  spotId : ℤ
  userId : ℤ
  rating : ℤ
deriving DecidableEq, Repr

/-- The `rating` field validators of the `Review` model
(`MinValueValidator(1)`, `MaxValueValidator(5)`), which both
`ReviewForm` and `ReviewAdminForm` run during `is_valid()`. -/
def ratingValid (rating : ℤ) : Bool :=
  decide (1 ≤ rating ∧ rating ≤ 5)

/-- `Review.objects.filter(spot=spot, user=user).exists()`. -/
def reviewExistsFor (db : List ReviewRow) (spotId userId : ℤ) : Bool :=
  db.any (fun r => r.spotId == spotId && r.userId == userId)

/-- `add_review` (src/spots/views.py): on POST, validate `ReviewForm`
(which enforces the rating validators); reject when a review by this
user for this spot already exists; otherwise save a new row.  Invalid
input or a duplicate leaves the table unchanged. -/
def add_review (db : List ReviewRow) (spotId userId rating newId : ℤ) :
    List ReviewRow :=
  if !ratingValid rating then db
  else if reviewExistsFor db spotId userId then db
  else db ++ [⟨newId, spotId, userId, rating⟩]

/-- `add_review_api` (src/spots/api_views.py): same shape as
`add_review` — form validation, then the explicit duplicate check, then
save. -/
def add_review_api (db : List ReviewRow) (spotId userId rating newId : ℤ) :
    List ReviewRow :=
  if !ratingValid rating then db
  else if reviewExistsFor db spotId userId then db
  else db ++ [⟨newId, spotId, userId, rating⟩]

/-- `ReviewAdminCreateView` (src/spots/admin_views.py) through
`ReviewAdminForm`: the `ModelForm.is_valid()` call runs the rating
validators and `validate_unique` for the `unique_together` constraint,
so an out-of-range rating or an existing (spot, user) review renders
the form invalid and nothing is saved. -/
def reviewAdminCreate (db : List ReviewRow) (spotId userId rating newId : ℤ) :
    List ReviewRow :=
  if !ratingValid rating then db
  else if reviewExistsFor db spotId userId then db
  else db ++ [⟨newId, spotId, userId, rating⟩]

/-- `ReviewAdminUpdateView` (src/spots/admin_views.py) through
`ReviewAdminForm` on an existing instance: 404 when the pk does not
exist; `is_valid()` runs the rating validators and `validate_unique`
excluding the instance itself; on success the row is updated in
place. -/
def reviewAdminUpdate (db : List ReviewRow)
    (targetId spotId userId rating : ℤ) : List ReviewRow :=
  if (db.find? (fun r => r.id == targetId)).isNone then db
  else if !ratingValid rating then db
  else if db.any (fun r => !(r.id == targetId)
      && r.spotId == spotId && r.userId == userId) then db
  else db.map (fun r =>
    if r.id == targetId then
      { r with spotId := spotId, userId := userId, rating := rating }
    else r)

/-- `ReviewAdminListView.post` bulk deletion
(`Review.objects.filter(pk__in=selected).delete()`) and
`ReviewAdminDeleteView`. -/
def reviewAdminDelete (db : List ReviewRow) (ids : List ℤ) : List ReviewRow :=
  db.filter (fun r => !(ids.contains r.id))

/-- The database invariant of C10: every stored rating lies in `1..5`,
distinct rows never share the (spot, user) key (the `unique_together`
constraint), and primary keys are unique. -/
def reviewInv (db : List ReviewRow) : Prop :=
  (∀ r ∈ db, 1 ≤ r.rating ∧ r.rating ≤ 5)
  ∧ db.Pairwise (fun a b => ¬(a.spotId = b.spotId ∧ a.userId = b.userId))
  ∧ (db.map (fun r => r.id)).Nodup

/- ===================================================================
   C6: API failure handling and fallback ordering
   (src/spots/services/analytics.py, `_request_scores_from_openai`
   and `order_spots_by_relevance`)
   =================================================================== -/

/-- The `source` strings of `RecommendationResult` in
src/spots/services/analytics.py. -/
def sourceApi : String := "api"

def sourceFallback : String := "fallback"

def sourceNone : String := "none"

/-- One item of the parsed `{"scores": [...]}` LLM payload; a `none`
component models a `spot_id`/`score` whose `int(...)`/`float(...)`
conversion raises (the source then skips the item). -/
structure ScoreItem where
  spotId : Option ℤ
  score : Option ℚ
deriving DecidableEq, Repr

/-- Outcome of the HTTP-call-and-parse pipeline of
`_request_scores_from_openai`.  Each failure constructor corresponds to
one `return {}` site in the source: missing `OPENAI_API_KEY`, a
requests exception or `raise_for_status`, a non-JSON response body, a
response without `choices[0].message.content`, and a message content
that `json.loads` rejects. -/
inductive ApiOutcome where
  | noApiKey
  | httpError
  | notJson
  | badStructure
  | contentNotJson
  | ok (items : List ScoreItem)
deriving DecidableEq, Repr

/-- Whether the outcome is one of the failure cases. -/
def ApiOutcome.isFailure : ApiOutcome → Bool
  | .ok _ => false
  | _ => true

/-- Python dict insertion: overwrite when the key exists, else append. -/
def dictInsert (m : List (ℤ × ℚ)) (k : ℤ) (v : ℚ) : List (ℤ × ℚ) :=
  if m.any (fun p => p.1 == k) then
    m.map (fun p => if p.1 == k then (k, v) else p)
  else m ++ [(k, v)]

/-- `_request_scores_from_openai` (src/spots/services/analytics.py):
every failure path returns the empty dict without raising; on success
the `scores` items with convertible `spot_id`/`score` are gathered into
a dict. -/
def requestScoresFromOpenai : ApiOutcome → List (ℤ × ℚ)
  | .ok items =>
      items.foldl (fun acc it =>
        match it.spotId, it.score with
        | some k, some v => dictInsert acc k v
        | _, _ => acc) []
  | _ => []

/-- The interactions queryset of `order_spots_by_relevance`:
`UserSpotInteraction.objects.filter(user=user, spot_id__in=spot_ids)`. -/
def interactionsFor (db : List InteractionRow) (userId : ℤ)
    (spots : List SpotRec) : List InteractionRow :=
  db.filter (fun i => i.userId == userId
    && (spots.map (fun s => s.id)).contains i.spotId)

/-- The fallback dict comprehension
`{interaction.spot_id: _compute_fallback_score(interaction) ...}`. -/
def fallbackScores (now : ℚ) (interactions : List InteractionRow) :
    List (ℤ × ℚ) :=
  interactions.foldl
    (fun acc i => dictInsert acc i.spotId (computeFallbackScore now i)) []

/-- `scores.get(spot.id, default_score)` lookup. -/
def scoresLookup (m : List (ℤ × ℚ)) (k : ℤ) : Option ℚ :=
  (m.find? (fun p => p.1 == k)).map (fun p => p.2)

/-- `min(scores.values())` (the call sites guarantee non-emptiness;
the `[]` case is unreachable there). -/
def scoresMin : List (ℤ × ℚ) → ℚ
  | [] => 0
  | p :: t => t.foldl (fun m q => min m q.2) p.2

/-- The result record of `order_spots_by_relevance`. -/
structure RecommendationResult where
  spots : List SpotRec
  source : String
  scoredSpotIds : List ℤ
  scores : List (ℤ × ℚ)
deriving DecidableEq, Repr

/-- The `sort_key` ordering: `sorted(spots_list, key=sort_key,
reverse=True)` lists `a` before `b` when the pair
(score, created_at) of `a` is lexicographically at least that of
`b`. -/
def relevanceBefore (scores : List (ℤ × ℚ)) (defaultScore : ℚ)
    (a b : SpotRec) : Bool :=
  decide ((scoresLookup scores b.id).getD defaultScore
      < (scoresLookup scores a.id).getD defaultScore
    ∨ ((scoresLookup scores a.id).getD defaultScore
          = (scoresLookup scores b.id).getD defaultScore
        ∧ b.createdAt ≤ a.createdAt))

/-- The tail of `order_spots_by_relevance` once a non-empty score dict
and its source are chosen: compute `default_score = min - 0.001`, sort
descending by (score, created_at), and return spots with metadata. -/
def sortAndBuild (spots : List SpotRec) (scores : List (ℤ × ℚ))
    (src : String) : RecommendationResult :=
  let defaultScore := scoresMin scores - 1 / 1000
  ⟨sortByKey (relevanceBefore scores defaultScore) spots, src,
    scores.map (fun p => p.1), scores⟩

/-- `user is None or not getattr(user, 'is_authenticated', False)`. -/
def userUnusable : Option UserRec → Bool
  | none => true
  | some u => !u.isAuthenticated

/-- `order_spots_by_relevance(spots, user)` from
src/spots/services/analytics.py, with the current time, the
`UserSpotInteraction` table and the API outcome as explicit
parameters. -/
def order_spots_by_relevance (now : ℚ) (spots : List SpotRec)
    (user : Option UserRec) (interactionDb : List InteractionRow)
    (api : ApiOutcome) : RecommendationResult :=
  if spots.isEmpty || userUnusable user then ⟨spots, sourceNone, [], []⟩
  else
    match user with
    | none => ⟨spots, sourceNone, [], []⟩
    | some u =>
      let interactions := interactionsFor interactionDb u.id spots
      if interactions.isEmpty then ⟨spots, sourceNone, [], []⟩
      else
        let apiScores := requestScoresFromOpenai api
        if !apiScores.isEmpty then sortAndBuild spots apiScores sourceApi
        else
          let fb := fallbackScores now interactions
          if fb.any (fun p => decide (0 < p.2)) then
            sortAndBuild spots fb sourceFallback
          else ⟨spots, sourceNone, [], []⟩

/- ===================================================================
   C2: removal of the AI-recommendation subsystem
   (src/spots/migrations/0009_remove_ai_features.py versus the
   recommendation code still present in the tree)
   =================================================================== -/

/-- The model classes defined in src/spots/models.py (the state after
the removal migration). -/
def modelsPyModelNames : List String :=
  [ r"Tag", r"Spot", r"Review", r"UserProfile", r"SpotView",
    r"UserSpotInteraction" ]

/-- The `DeleteModel` operations of
src/spots/migrations/0009_remove_ai_features.py. -/
def migration0009DeletedModels : List String :=
  [ r"RecommendationJobSetting", r"RecommendationJobLog",
    r"UserRecommendationScore" ]

/-- The names imported from `..models` by
src/spots/services/recommendation_jobs.py (lines 14-20). -/
def recommendationJobsModelImports : List String :=
  [ r"RecommendationJobLog", r"RecommendationJobSetting", r"Spot",
    r"UserRecommendationScore", r"UserSpotInteraction" ]

/-- The names imported from `..models` by
src/spots/services/homepage.py (line 11), a module imported on every
home-page request. -/
def homepageModelImports : List String :=
  [ r"Spot", r"UserRecommendationScore" ]

/-- The `__all__` export list of src/spots/services/__init__.py, which
eagerly imports `analytics` and `recommendation_jobs`. -/
def servicesInitExports : List String :=
  [ r"RecommendationResult", r"RecommendationToolCall",
    r"build_recommendation_tool_context", r"build_recommendation_tool_schema",
    r"build_tool_call_from_result", r"compute_and_store_all_user_scores",
    r"get_or_create_job_setting", r"is_job_due", r"order_spots_by_relevance",
    r"run_recommendation_for_user", r"store_recommendation_scores",
    r"update_last_run" ]

/- ===================================================================
   C7: BFS crawler (src/scripts/flow/generate_flow.py,
   `crawl` and `_normalize_url`)
   =================================================================== -/

/-- A parsed URL in the five components the script reads
(`urlparse`): scheme, netloc, path, query, fragment. -/
structure Url where
  scheme : String
  netloc : String
  path : String
  query : String
  fragment : String
deriving DecidableEq, Repr

/-- One fetched page as the crawler observes it: `fetchOk = false`
models a `requests` exception, `parseOk = false` a fatal
`HTMLParser.feed` error; `links` are the `(href, anchor text)` pairs
the parser extracts. -/
structure PageResponse where
  fetchOk : Bool
  statusCode : ℕ
  contentType : String
  parseOk : Bool
  title : String
  links : List (String × String)

/-- The crawler's environment: the HTTP session (`session.get`) and the
standard library's `urljoin` resolution, both outside the script's own
code. -/
structure WebEnv where
  fetch : Url → PageResponse
  resolve : Url → String → Url

def hashMarkStr : String := "#"

def mailtoStr : String := "mailto:"

def telStr : String := "tel:"

def javascriptStr : String := "javascript:"

def textHtmlStr : String := "text/html"

def slashStr : String := "/"

def emptyStr : String := ""

def schemeSepStr : String := "://"

/-- `_normalize_url(base, href)` from src/scripts/flow/generate_flow.py:

    if not href: return None
    href = href.strip()
    if href.startswith("#") or href.startswith("mailto:")
        or href.startswith("tel:") or href.lower().startswith("javascript:"):
      return None
    abs_url = urljoin(base, href)
    parts = urlparse(abs_url)._replace(fragment="")
    return urlunparse(parts)
-/
def normalizeUrl (env : WebEnv) (base : Url) (href : String) : Option Url :=
  if href = emptyStr then none
  else if href.trim.startsWith hashMarkStr || href.trim.startsWith mailtoStr
      || href.trim.startsWith telStr
      || href.trim.toLower.startsWith javascriptStr then
    none
  else some { env.resolve base href.trim with fragment := emptyStr }

/-- `"text/html" not in content_type` test, embedded via `splitOn`. -/
def containsTextHtml (contentType : String) : Bool :=
  decide (1 < (contentType.splitOn textHtmlStr).length)

/-- `titles[url] = title` dict assignment. -/
def titlesInsert (titles : List (Url × String)) (u : Url) (t : String) :
    List (Url × String) :=
  if titles.any (fun p => p.1 == u) then
    titles.map (fun p => if p.1 == u then (u, t) else p)
  else titles ++ [(u, t)]

/-- `parser.title or urlparse(url).path or url`: first non-empty of the
page title, the path, and the URL itself. -/
def pageTitle (resp : PageResponse) (u : Url) : String :=
  if resp.title ≠ emptyStr then resp.title
  else if u.path ≠ emptyStr then u.path
  else u.scheme ++ schemeSepStr ++ u.netloc ++ u.path

/-- The inner `for href, text in parser.links:` loop of `crawl`:
normalise each href, keep only same-origin targets, apply the
exclude/include path filters, record an edge, and enqueue the target
unless it is already visited or queued. -/
def processLinks (env : WebEnv) (origin : String × String)
    (includeP excludeP : Option (String → Bool)) (pageUrl : Url)
    (visited : List Url) :
    List (String × String) → List Url → List (Url × Url × String)
      → List Url × List (Url × Url × String)
  | [], queue, edges => (queue, edges)
  | (href, text) :: rest, queue, edges =>
    match normalizeUrl env pageUrl href with
    | none => processLinks env origin includeP excludeP pageUrl visited rest queue edges
    | some nurl =>
      if ¬(nurl.scheme = origin.1 ∧ nurl.netloc = origin.2) then
        processLinks env origin includeP excludeP pageUrl visited rest queue edges
      else
        let path := if nurl.path = emptyStr then slashStr else nurl.path
        if (match excludeP with | some f => f path | none => false) then
          processLinks env origin includeP excludeP pageUrl visited rest queue edges
        else if (match includeP with | some f => !f path | none => false) then
          processLinks env origin includeP excludeP pageUrl visited rest queue edges
        else
          let edges' := edges ++ [(pageUrl, nurl, text)]
          let queue' := if nurl ∉ visited ∧ nurl ∉ queue then queue ++ [nurl]
            else queue
          processLinks env origin includeP excludeP pageUrl visited rest queue' edges'

/-- The `while to_visit and len(visited) < max_pages:` loop of `crawl`:
pop the queue head (FIFO `popleft`), skip if already visited, mark
visited, fetch, bail out of the body on fetch error / bad status /
non-HTML content / parse failure, record the title, and process the
page's links. -/
def crawlLoop (env : WebEnv) (origin : String × String)
    (includeP excludeP : Option (String → Bool)) (maxPages : ℕ)
    (queue visited : List Url) (titles : List (Url × String))
    (edges : List (Url × Url × String)) :
    List Url × List (Url × String) × List (Url × Url × String) :=
  match queue with
  | [] => (visited, titles, edges)
  | url :: rest =>
    if hfull : maxPages ≤ visited.length then (visited, titles, edges)
    else if url ∈ visited then
      crawlLoop env origin includeP excludeP maxPages rest visited titles edges
    else
      let visited' := visited ++ [url]
      let resp := env.fetch url
      if !resp.fetchOk || decide (400 ≤ resp.statusCode)
          || !containsTextHtml resp.contentType || !resp.parseOk then
        crawlLoop env origin includeP excludeP maxPages rest visited' titles edges
      else
        let titles' := titlesInsert titles url (pageTitle resp url)
        let next := processLinks env origin includeP excludeP url visited'
          resp.links rest edges
        crawlLoop env origin includeP excludeP maxPages next.1 visited' titles' next.2
termination_by (maxPages - visited.length, queue.length)
decreasing_by
  · apply Prod.Lex.right
    simp
  · apply Prod.Lex.left
    simp only [List.length_append, List.length_singleton]
    omega
  · apply Prod.Lex.left
    simp only [List.length_append, List.length_singleton]
    omega

/-- `crawl(base_url, max_pages, include_pattern, exclude_pattern)` from
src/scripts/flow/generate_flow.py: BFS from the base URL restricted to
its origin `(scheme, netloc)`.  Besides the `(titles, edges)` the
source returns, the embedding also returns the `visited` set (in visit
order) so the traversal behaviour can be stated. -/
def crawl (env : WebEnv) (baseUrl : Url) (maxPages : ℕ)
    (includeP excludeP : Option (String → Bool)) :
    List Url × List (Url × String) × List (Url × Url × String) :=
  crawlLoop env (baseUrl.scheme, baseUrl.netloc) includeP excludeP maxPages
    [baseUrl] [] [] []

/- ===================================================================
   Theorems
   =================================================================== -/

section SortLemmas

variable {α : Type} (le : α → α → Bool)

theorem mem_insertSorted (x : α) (l : List α) (a : α) :
    a ∈ insertSorted le x l ↔ a = x ∨ a ∈ l := by
  induction l with
  | nil => simp [insertSorted]
  | cons y ys ih =>
    simp only [insertSorted]
    by_cases h : le x y = true
    · simp only [if_pos h, List.mem_cons]
    · simp only [if_neg h, List.mem_cons, ih]
      tauto

theorem pairwise_insertSorted
    (total : ∀ a b, le a b = true ∨ le b a = true)
    (htrans : ∀ a b c, le a b = true → le b c = true → le a c = true)
    (x : α) (l : List α) (hl : l.Pairwise (fun a b => le a b = true)) :
    (insertSorted le x l).Pairwise (fun a b => le a b = true) := by
  induction l with
  | nil => simp [insertSorted]
  | cons y ys ih =>
    rcases List.pairwise_cons.mp hl with ⟨hy, hys⟩
    simp only [insertSorted]
    by_cases h : le x y = true
    · rw [if_pos h]
      refine List.pairwise_cons.mpr ⟨?_, hl⟩
      intro b hb
      rcases List.mem_cons.mp hb with rfl | hb
      · exact h
      · exact htrans x y b h (hy b hb)
    · rw [if_neg h]
      refine List.pairwise_cons.mpr ⟨?_, ih hys⟩
      intro b hb
      rcases (mem_insertSorted le x ys b).mp hb with rfl | hb
      · rcases total y b with hle | hle
        · exact hle
        · exact absurd hle h
      · exact hy b hb

theorem mem_sortByKey (l : List α) (a : α) :
    a ∈ sortByKey le l ↔ a ∈ l := by
  induction l with
  | nil => simp [sortByKey]
  | cons x xs ih =>
    simp only [sortByKey, mem_insertSorted, ih, List.mem_cons]

theorem pairwise_sortByKey
    (total : ∀ a b, le a b = true ∨ le b a = true)
    (htrans : ∀ a b c, le a b = true → le b c = true → le a c = true)
    (l : List α) :
    (sortByKey le l).Pairwise (fun a b => le a b = true) := by
  induction l with
  | nil => simp [sortByKey]
  | cons x xs ih =>
    exact pairwise_insertSorted le total htrans x _ ih

end SortLemmas

theorem rankBefore_total (now : ℚ) (views : List SpotViewRec) (a b : SpotRec) :
    rankBefore now views a b = true ∨ rankBefore now views b a = true := by
  simp only [rankBefore, decide_eq_true_eq]
  rcases lt_trichotomy (weeklyViews now views a) (weeklyViews now views b) with h | h | h
  · right; left; exact h
  · rcases le_total a.createdAt b.createdAt with hc | hc
    · right; right; exact ⟨h.symm, hc⟩
    · left; right; exact ⟨h, hc⟩
  · left; left; exact h

theorem rankBefore_trans (now : ℚ) (views : List SpotViewRec) (a b c : SpotRec) :
    rankBefore now views a b = true → rankBefore now views b c = true →
      rankBefore now views a c = true := by
  simp only [rankBefore, decide_eq_true_eq]
  rintro (h₁ | ⟨h₁, h₁c⟩) (h₂ | ⟨h₂, h₂c⟩)
  · left; omega
  · left; omega
  · left; omega
  · right; exact ⟨by omega, le_trans h₂c h₁c⟩

/-- C4: the weekly view-count ranking shows at most 7 spots, each of
them a spot from the database with at least one `SpotView` in the last
7 days, and consecutive entries are ordered by descending weekly view
count with ties broken by more recent `created_at`. -/
theorem ranking_spec (now : ℚ) (spots : List SpotRec) (views : List SpotViewRec) :
    (ranking now spots views).length ≤ 7
    ∧ (∀ s ∈ ranking now spots views, 1 ≤ weeklyViews now views s ∧ s ∈ spots)
    ∧ (ranking now spots views).Pairwise
        (fun a b => weeklyViews now views b < weeklyViews now views a
          ∨ (weeklyViews now views a = weeklyViews now views b
              ∧ b.createdAt ≤ a.createdAt)) := by
  refine ⟨?_, ?_, ?_⟩
  · simp only [ranking]
    exact List.length_take_le 7 _
  · intro s hs
    have hmem : s ∈ sortByKey (rankBefore now views)
        (spots.filter (fun s => decide (0 < weeklyViews now views s))) :=
      List.mem_of_mem_take hs
    have := (mem_sortByKey _ _ _).mp hmem
    rcases List.mem_filter.mp this with ⟨hsp, hpos⟩
    have : 0 < weeklyViews now views s := of_decide_eq_true hpos
    exact ⟨this, hsp⟩
  · have hp := pairwise_sortByKey (rankBefore now views)
      (rankBefore_total now views) (rankBefore_trans now views)
      (spots.filter (fun s => decide (0 < weeklyViews now views s)))
    have hsub : List.Sublist (ranking now spots views)
        (sortByKey (rankBefore now views)
          (spots.filter (fun s => decide (0 < weeklyViews now views s)))) :=
      List.take_sublist _ _
    refine (hp.sublist hsub).imp ?_
    intro a b h
    exact (decide_eq_true_eq).mp h

/-- C1: For every user-spot interaction record (with a non-negative
accumulated duration and a `last_viewed_at` not in the future, as the
program maintains), the fallback recommendation score equals
`view_count * 2 + recency_bonus + duration_bonus` where
`recency_bonus = max(0, 3 - (days since last_viewed_at) / 10)` and
`duration_bonus = min(total view minutes, 60) * 0.5`; the score is
non-negative, and the view-count term contributes exactly twice the
view count. -/
theorem fallback_score_formula (now : ℚ) (i : InteractionRow)
    (hdur : 0 ≤ i.totalViewDurationSeconds) (hlast : i.lastViewedAt ≤ now) :
    computeFallbackScore now i
      = (i.viewCount : ℚ) * 2
        + max (3 - ((now - i.lastViewedAt) / 86400) / 10) 0
        + min (i.totalViewDurationSeconds / 60) 60 * (1 / 2)
    ∧ 0 ≤ computeFallbackScore now i
    ∧ computeFallbackScore now { i with viewCount := 0 } + (i.viewCount : ℚ) * 2
        = computeFallbackScore now i := by
  have hdays : (0 : ℚ) ≤ (now - i.lastViewedAt) / 86400 :=
    div_nonneg (sub_nonneg.mpr hlast) (by norm_num)
  have hclamp : max ((now - i.lastViewedAt) / 86400) 0 = (now - i.lastViewedAt) / 86400 :=
    max_eq_left hdays
  refine ⟨?_, ?_, ?_⟩
  · simp only [computeFallbackScore, hclamp]
  · have h1 : (0 : ℚ) ≤ (i.viewCount : ℚ) * 2 := by positivity
    have h2 : (0 : ℚ) ≤ max (3 - max ((now - i.lastViewedAt) / 86400) 0 / 10) 0 :=
      le_max_right _ _
    have h3 : (0 : ℚ) ≤ min (i.totalViewDurationSeconds / 60) 60 * (1 / 2) := by
      have : (0 : ℚ) ≤ min (i.totalViewDurationSeconds / 60) 60 :=
        le_min (div_nonneg hdur (by norm_num)) (by norm_num)
      linarith
    simp only [computeFallbackScore]
    linarith
  · simp only [computeFallbackScore, Nat.cast_zero]
    ring

/-- Witness for C1 at a concrete interaction record: the hypotheses hold
and the score evaluates as the claim states. -/
theorem fallback_score_formula_witness :
    0 ≤ (⟨1, 5, 600, 100, 7 * 86400⟩ : InteractionRow).totalViewDurationSeconds
    ∧ (⟨1, 5, 600, 100, 7 * 86400⟩ : InteractionRow).lastViewedAt ≤ (8 * 86400 : ℚ)
    ∧ 0 ≤ computeFallbackScore (8 * 86400) ⟨1, 5, 600, 100, 7 * 86400⟩ := by
  refine ⟨by norm_num, by norm_num, ?_⟩
  exact (fallback_score_formula (8 * 86400) ⟨1, 5, 600, 100, 7 * 86400⟩
    (by norm_num) (by norm_num)).2.1

/-- C3: `is_job_due(setting, now)` returns `True` if and only if the
setting is enabled and either it has never run (`last_run_at` is `None`)
or at least `interval_hours * 3600` seconds have elapsed since
`last_run_at`.  The embedded function reads only these fields and
returns a Boolean without modifying any state. -/
theorem is_job_due_iff (setting : RecommendationJobSetting) (now : ℚ) :
    is_job_due setting now = true ↔
      setting.enabled = true ∧
        (setting.lastRunAt = none ∨
          ∃ lastRun, setting.lastRunAt = some lastRun ∧
            (setting.intervalHours : ℚ) * 3600 ≤ now - lastRun) := by
  rcases setting with ⟨enabled, intervalHours, lastRunAt⟩
  cases enabled <;> cases lastRunAt <;>
    simp [is_job_due]

section RowLookupLemmas

theorem findInteraction_map_keyed (db : List InteractionRow)
    (f : InteractionRow → InteractionRow)
    (hf : ∀ r, (f r).userId = r.userId ∧ (f r).spotId = r.spotId) (u s : ℤ) :
    findInteraction (db.map f) u s = (findInteraction db u s).map f := by
  unfold findInteraction
  rw [List.find?_map]
  congr 2
  funext r
  simp [Function.comp, (hf r).1, (hf r).2]

theorem findInteraction_append_one (db : List InteractionRow) (x : InteractionRow)
    (u s : ℤ) :
    findInteraction (db ++ [x]) u s
      = (findInteraction db u s).or (findInteraction [x] u s) := by
  unfold findInteraction
  rw [List.find?_append]

theorem findProfile_map_keyed (db : List ProfileRow) (f : ProfileRow → ProfileRow)
    (hf : ∀ q, (f q).userId = q.userId) (u : ℤ) :
    findProfile (db.map f) u = (findProfile db u).map f := by
  unfold findProfile
  rw [List.find?_map]
  congr 2
  funext q
  simp [Function.comp, hf q]

theorem findProfile_userId (db : List ProfileRow) (u : ℤ) (p : ProfileRow)
    (hp : findProfile db u = some p) : p.userId = u := by
  have := List.find?_some hp
  simpa using this

theorem findInteraction_key (db : List InteractionRow) (u s : ℤ) (r : InteractionRow)
    (hr : findInteraction db u s = some r) : r.userId = u ∧ r.spotId = s := by
  have := List.find?_some hr
  simpa using this

theorem findProfile_append_one (db : List ProfileRow) (x : ProfileRow) (u : ℤ)
    (h : findProfile db u = none) (hx : x.userId = u) :
    findProfile (db ++ [x]) u = some x := by
  unfold findProfile at h ⊢
  rw [List.find?_append, h]
  simp [List.find?, hx]

theorem totalViewDurationOf_append_one (db : List InteractionRow)
    (x : InteractionRow) (u s : ℤ) (h : 0 ≤ x.totalViewDurationSeconds) :
    totalViewDurationOf db u s ≤ totalViewDurationOf (db ++ [x]) u s := by
  unfold totalViewDurationOf
  rw [findInteraction_append_one]
  cases hfind : findInteraction db u s with
  | some r => simp
  | none =>
    simp only [Option.or]
    cases h2 : findInteraction [x] u s with
    | none => simp
    | some y =>
      have hy := List.mem_of_find?_eq_some h2
      simp only [List.mem_singleton] at hy
      subst hy
      simpa using h

theorem totalViewDurationOf_map_update (db : List InteractionRow)
    (uid sid : ℤ) (add stamp : ℚ) (hadd : 0 ≤ add) (u s : ℤ) :
    totalViewDurationOf db u s
      ≤ totalViewDurationOf (db.map (fun r =>
          if r.userId == uid && r.spotId == sid then
            { r with
                totalViewDurationSeconds := r.totalViewDurationSeconds + add,
                lastViewedAt := stamp }
          else r)) u s := by
  unfold totalViewDurationOf
  rw [findInteraction_map_keyed _ _ (fun r => by
    by_cases hm : (r.userId == uid && r.spotId == sid) = true <;> simp [hm]) u s]
  cases h : findInteraction db u s with
  | none => simp
  | some r =>
    simp only [Option.map_some', Option.getD_some]
    by_cases hmatch : (r.userId == uid && r.spotId == sid) = true
    · rw [if_pos hmatch]
      exact le_add_of_nonneg_right hadd
    · rw [if_neg hmatch]

end RowLookupLemmas

/-- Counterexample to C5 as stated: `admin_user_detail` is an admin
dashboard route whose view resolves its target user before the access
checks, so a non-staff request (authenticated or not) with a
nonexistent pk receives `Http404` — it is neither redirected to the
login page nor to home, contradicting the claim's "the request is
redirected". -/
theorem admin_dashboard_staff_only_counterexample :
    (⟨r"admin_user_detail", r"UserAdminDetailView", true, true⟩ : AdminRoute)
        ∈ adminRoutes
    ∧ userObjectDispatch false ⟨false, false⟩ = DispatchOutcome.notFound
    ∧ ¬(userObjectDispatch false ⟨false, false⟩ = DispatchOutcome.redirectLogin
        ∨ userObjectDispatch false ⟨false, false⟩ = DispatchOutcome.redirectHome)
    ∧ ¬(userObjectDispatch false ⟨true, false⟩ = DispatchOutcome.redirectHome) := by
  decide

/-- C5 (amended): every custom admin dashboard route goes through
`StaffRequiredMixin`, and no route's dispatch ever reaches the view
handler for a non-staff user: a non-staff request is redirected (home
with an error message if authenticated, to the login page otherwise),
except that the two user-admin views (`UserAdminDetailView`,
`UserAdminPasswordChangeView`) first resolve the target user with
`get_object_or_404` and answer 404 when the pk does not exist; in
every case the handler runs only when `request.user.is_staff`. -/
theorem admin_dashboard_staff_only_amended (u : RequestUser) :
    (∀ route ∈ adminRoutes, route.staffRequired = true)
    ∧ (∀ route ∈ adminRoutes, ∀ ex : Bool, u.isStaff = false →
        routeDispatch route ex u ≠ DispatchOutcome.handled
        ∧ (route.resolvesObjectFirst = false ∨ ex = true →
            routeDispatch route ex u
              = (if u.isAuthenticated then DispatchOutcome.redirectHome
                 else DispatchOutcome.redirectLogin))
        ∧ (route.resolvesObjectFirst = true → ex = false →
            routeDispatch route ex u = DispatchOutcome.notFound))
    ∧ (∀ (route : AdminRoute) (ex : Bool),
        routeDispatch route ex u = DispatchOutcome.handled →
          u.isStaff = true) := by
  refine ⟨by decide, ?_, ?_⟩
  · intro route hroute ex hs
    refine ⟨?_, ?_, ?_⟩ <;>
      rcases route with ⟨n, c, st, ro⟩ <;> cases ro <;> cases ex <;>
        cases ha : u.isAuthenticated <;>
          simp [routeDispatch, userObjectDispatch, staffRequiredDispatch, hs, ha]
  · intro route ex h
    cases hh : u.isStaff
    · exfalso
      rcases route with ⟨n, c, st, ro⟩
      cases ro <;> cases ex <;> cases ha : u.isAuthenticated <;>
        simp_all [routeDispatch, userObjectDispatch, staffRequiredDispatch]
    · rfl

/-- Witness for the amended C5 at concrete inputs: an authenticated
non-staff request gets 404 on the user-detail route with a nonexistent
pk, and the home redirect on the dashboard route. -/
theorem admin_dashboard_staff_only_amended_witness :
    routeDispatch ⟨r"admin_user_detail", r"UserAdminDetailView", true, true⟩
        false ⟨true, false⟩
      = DispatchOutcome.notFound
    ∧ routeDispatch ⟨r"admin_dashboard", r"AdminDashboardView", true, false⟩
        true ⟨true, false⟩
      = DispatchOutcome.redirectHome := by
  have h := admin_dashboard_staff_only_amended ⟨true, false⟩
  constructor
  · exact (h.2.1 ⟨r"admin_user_detail", r"UserAdminDetailView", true, true⟩
      (by decide) false rfl).2.2 rfl rfl
  · have h2 := (h.2.1 ⟨r"admin_dashboard", r"AdminDashboardView", true, false⟩
      (by decide) true rfl).2.1 (Or.inl rfl)
    simpa using h2

/-- C8: `update_view_duration` keeps the stored total non-decreasing.
For an authenticated user: a non-positive duration is clamped to zero
and an existing interaction row is left unchanged; a positive duration
adds exactly that amount to the existing row's total (stamping
`last_viewed_at`); when no row exists, one is created with that total
and `view_count = 1`; and for every (user, spot) pair the stored total
never decreases. -/
theorem update_view_duration_spec (now : ℚ) (db : List InteractionRow)
    (user : UserRec) (spotId : ℤ) (duration : ℚ)
    (hauth : user.isAuthenticated = true) :
    (duration ≤ 0 → ∀ r, findInteraction db user.id spotId = some r →
        updateViewDuration now db user spotId duration = db)
    ∧ (0 < duration → ∀ r, findInteraction db user.id spotId = some r →
        findInteraction (updateViewDuration now db user spotId duration)
            user.id spotId
          = some { r with
              totalViewDurationSeconds := r.totalViewDurationSeconds + duration,
              lastViewedAt := now })
    ∧ (0 < duration → findInteraction db user.id spotId = none →
        updateViewDuration now db user spotId duration
          = db ++ [⟨user.id, spotId, 1, duration, now⟩])
    ∧ (∀ u s, totalViewDurationOf db u s
        ≤ totalViewDurationOf (updateViewDuration now db user spotId duration) u s) := by
  refine ⟨?_, ?_, ?_, ?_⟩
  · intro hd r hr
    have hnl : ¬ (0 : ℚ) < duration := not_lt.mpr hd
    simp only [updateViewDuration, hauth, Bool.not_true, Bool.false_eq_true,
      if_false, hr]
    rw [if_neg hnl, if_pos rfl]
  · intro hd r hr
    have hkey := findInteraction_key db user.id spotId r hr
    simp only [updateViewDuration, hauth, Bool.not_true, Bool.false_eq_true,
      if_false, if_pos hd, hr]
    have hne : ¬ duration = 0 := ne_of_gt hd
    rw [if_neg hne]
    rw [findInteraction_map_keyed _ _ (fun r => by
      by_cases h : (r.userId == user.id && r.spotId == spotId) = true <;>
        simp [h]) user.id spotId, hr]
    simp only [Option.map_some']
    rw [if_pos (by simp [hkey.1, hkey.2])]
  · intro hd hnone
    simp only [updateViewDuration, hauth, Bool.not_true, Bool.false_eq_true,
      if_false, if_pos hd, hnone]
  · intro u s
    simp only [updateViewDuration, hauth, Bool.not_true, Bool.false_eq_true,
      if_false]
    by_cases hd : (0 : ℚ) < duration
    · rw [if_pos hd]
      cases hfind : findInteraction db user.id spotId with
      | none => exact totalViewDurationOf_append_one db _ u s hd.le
      | some r₀ =>
        rw [if_neg (ne_of_gt hd)]
        exact totalViewDurationOf_map_update db user.id spotId duration now hd.le u s
    · rw [if_neg hd]
      cases hfind : findInteraction db user.id spotId with
      | none => exact totalViewDurationOf_append_one db _ u s le_rfl
      | some r₀ =>
        rw [if_pos rfl]

/-- Witness for C8: an authenticated user with no existing row and a
positive duration gets a fresh row with that total and view count 1. -/
theorem update_view_duration_spec_witness :
    (⟨1, true⟩ : UserRec).isAuthenticated = true
    ∧ (0 : ℚ) < 5
    ∧ findInteraction [] 1 2 = none
    ∧ updateViewDuration 100 [] ⟨1, true⟩ 2 5 = [] ++ [⟨1, 2, 1, 5, 100⟩] := by
  refine ⟨rfl, by norm_num, rfl, ?_⟩
  exact (update_view_duration_spec 100 [] ⟨1, true⟩ 2 5 rfl).2.2.1 (by norm_num) rfl

section FavoritesLemmas

theorem favoritesOf_eq_of_find (db : List ProfileRow) (u : ℤ) (p : ProfileRow)
    (hp : findProfile db u = some p) : favoritesOf db u = p.favorites := by
  unfold favoritesOf
  rw [hp]
  rfl

theorem favoritesOf_eq_nil_of_none (db : List ProfileRow) (u : ℤ)
    (h : findProfile db u = none) : favoritesOf db u = [] := by
  unfold favoritesOf
  rw [h]
  rfl

theorem favoritesOf_map_update (db : List ProfileRow) (f : ProfileRow → ProfileRow)
    (hf : ∀ q, (f q).userId = q.userId) (u : ℤ) (p : ProfileRow)
    (hp : findProfile db u = some p) :
    favoritesOf (db.map f) u = (f p).favorites := by
  unfold favoritesOf
  rw [findProfile_map_keyed db f hf u, hp]
  rfl

end FavoritesLemmas

theorem removeFavorite_userId (uid spotId : ℤ) (q : ProfileRow) :
    (removeFavorite uid spotId q).userId = q.userId := by
  unfold removeFavorite
  by_cases h : (q.userId == uid) = true <;> simp [h]

theorem addFavorite_userId (uid spotId : ℤ) (q : ProfileRow) :
    (addFavorite uid spotId q).userId = q.userId := by
  unfold addFavorite
  by_cases h : (q.userId == uid) = true <;> simp [h]

theorem toggleFavoriteSpot_create (db : List ProfileRow) (user : UserRec)
    (spotId : ℤ) (hauth : user.isAuthenticated = true)
    (hp : findProfile db user.id = none) :
    toggleFavoriteSpot db user spotId
      = (some true, db ++ [⟨user.id, [spotId]⟩]) := by
  simp [toggleFavoriteSpot, hauth, hp]

theorem toggleFavoriteSpot_remove (db : List ProfileRow) (user : UserRec)
    (spotId : ℤ) (p : ProfileRow) (hauth : user.isAuthenticated = true)
    (hp : findProfile db user.id = some p) (hmem : spotId ∈ p.favorites) :
    toggleFavoriteSpot db user spotId
      = (some false, db.map (removeFavorite user.id spotId)) := by
  simp [toggleFavoriteSpot, hauth, hp, hmem]

theorem toggleFavoriteSpot_add (db : List ProfileRow) (user : UserRec)
    (spotId : ℤ) (p : ProfileRow) (hauth : user.isAuthenticated = true)
    (hp : findProfile db user.id = some p) (hmem : spotId ∉ p.favorites) :
    toggleFavoriteSpot db user spotId
      = (some true, db.map (addFavorite user.id spotId)) := by
  simp [toggleFavoriteSpot, hauth, hp, hmem]

/-- C9: `toggle_favorite_spot` is an involution on the favorite set.
For an authenticated user a call returns `True` exactly when the spot
is a favorite after the call, and two consecutive calls restore the
user's favorite set (as a set of spot ids) to its original state; an
unauthenticated user gets a `ValueError` (embedded as `none`) and the
state is unchanged. -/
theorem toggle_favorite_spot_spec (db : List ProfileRow) (user : UserRec)
    (spotId : ℤ) :
    (user.isAuthenticated = false → toggleFavoriteSpot db user spotId = (none, db))
    ∧ (user.isAuthenticated = true →
        (∃ b db', toggleFavoriteSpot db user spotId = (some b, db')
            ∧ (b = true ↔ spotId ∈ favoritesOf db' user.id))
        ∧ (∀ x,
            x ∈ favoritesOf
                (toggleFavoriteSpot (toggleFavoriteSpot db user spotId).2
                    user spotId).2 user.id
              ↔ x ∈ favoritesOf db user.id)) := by
  constructor
  · intro h
    simp [toggleFavoriteSpot, h]
  · intro hauth
    cases hp : findProfile db user.id with
    | none =>
      have hdb1 := toggleFavoriteSpot_create db user spotId hauth hp
      have hs1 : (toggleFavoriteSpot db user spotId).2
          = db ++ [⟨user.id, [spotId]⟩] := by rw [hdb1]
      have hfind1 : findProfile (db ++ [⟨user.id, [spotId]⟩]) user.id
          = some ⟨user.id, [spotId]⟩ :=
        findProfile_append_one db _ user.id hp rfl
      refine ⟨⟨true, _, hdb1, ?_⟩, ?_⟩
      · rw [favoritesOf_eq_of_find _ _ _ hfind1]
        simp
      · intro x
        rw [hs1]
        have hmem1 : spotId ∈ (⟨user.id, [spotId]⟩ : ProfileRow).favorites := by simp
        have hdb2 := toggleFavoriteSpot_remove (db ++ [⟨user.id, [spotId]⟩])
          user spotId _ hauth hfind1 hmem1
        have hs2 : (toggleFavoriteSpot (db ++ [⟨user.id, [spotId]⟩]) user spotId).2
            = List.map (removeFavorite user.id spotId)
                (db ++ [(⟨user.id, [spotId]⟩ : ProfileRow)]) := by
          rw [hdb2]
        rw [hs2]
        rw [favoritesOf_map_update _ _ (removeFavorite_userId user.id spotId)
          user.id _ hfind1]
        rw [favoritesOf_eq_nil_of_none db user.id hp]
        simp [removeFavorite]
    | some p =>
      have hpu : p.userId = user.id := findProfile_userId db user.id p hp
      have hfavs : favoritesOf db user.id = p.favorites :=
        favoritesOf_eq_of_find _ _ _ hp
      by_cases hmem : spotId ∈ p.favorites
      · have hdb1 := toggleFavoriteSpot_remove db user spotId p hauth hp hmem
        have hs1 : (toggleFavoriteSpot db user spotId).2
            = db.map (removeFavorite user.id spotId) := by rw [hdb1]
        have hfind1 : findProfile (db.map (removeFavorite user.id spotId)) user.id
            = some (removeFavorite user.id spotId p) := by
          rw [findProfile_map_keyed _ _ (removeFavorite_userId user.id spotId)
            user.id, hp]
          rfl
        have hrem : (removeFavorite user.id spotId p).favorites
            = p.favorites.filter (fun y => !(y == spotId)) := by
          simp [removeFavorite, hpu]
        refine ⟨⟨false, _, hdb1, ?_⟩, ?_⟩
        · rw [favoritesOf_map_update _ _ (removeFavorite_userId user.id spotId)
            user.id _ hp, hrem]
          simp [List.mem_filter]
        · intro x
          rw [hs1]
          have hnm2 : spotId ∉ (removeFavorite user.id spotId p).favorites := by
            rw [hrem]
            simp [List.mem_filter]
          have hdb2 := toggleFavoriteSpot_add (db.map (removeFavorite user.id spotId))
            user spotId _ hauth hfind1 hnm2
          have hs2 : (toggleFavoriteSpot (db.map (removeFavorite user.id spotId))
                user spotId).2
              = (db.map (removeFavorite user.id spotId)).map
                  (addFavorite user.id spotId) := by rw [hdb2]
          rw [hs2]
          rw [favoritesOf_map_update _ _ (addFavorite_userId user.id spotId)
            user.id _ hfind1]
          have hfl : (addFavorite user.id spotId (removeFavorite user.id spotId p)).favorites
              = p.favorites.filter (fun y => !(y == spotId)) ++ [spotId] := by
            simp [addFavorite, removeFavorite, hpu]
          rw [hfl, hfavs]
          simp only [List.mem_append, List.mem_filter, List.mem_singleton,
            Bool.not_eq_true', beq_eq_false_iff_ne]
          constructor
          · rintro (⟨hx, _⟩ | rfl)
            · exact hx
            · exact hmem
          · intro hx
            by_cases hxs : x = spotId
            · right
              exact hxs
            · left
              exact ⟨hx, hxs⟩
      · have hdb1 := toggleFavoriteSpot_add db user spotId p hauth hp hmem
        have hs1 : (toggleFavoriteSpot db user spotId).2
            = db.map (addFavorite user.id spotId) := by rw [hdb1]
        have hfind1 : findProfile (db.map (addFavorite user.id spotId)) user.id
            = some (addFavorite user.id spotId p) := by
          rw [findProfile_map_keyed _ _ (addFavorite_userId user.id spotId)
            user.id, hp]
          rfl
        have hadd : (addFavorite user.id spotId p).favorites
            = p.favorites ++ [spotId] := by
          simp [addFavorite, hpu]
        refine ⟨⟨true, _, hdb1, ?_⟩, ?_⟩
        · rw [favoritesOf_map_update _ _ (addFavorite_userId user.id spotId)
            user.id _ hp, hadd]
          simp
        · intro x
          rw [hs1]
          have hm2 : spotId ∈ (addFavorite user.id spotId p).favorites := by
            rw [hadd]
            simp
          have hdb2 := toggleFavoriteSpot_remove (db.map (addFavorite user.id spotId))
            user spotId _ hauth hfind1 hm2
          have hs2 : (toggleFavoriteSpot (db.map (addFavorite user.id spotId))
                user spotId).2
              = (db.map (addFavorite user.id spotId)).map
                  (removeFavorite user.id spotId) := by rw [hdb2]
          rw [hs2]
          rw [favoritesOf_map_update _ _ (removeFavorite_userId user.id spotId)
            user.id _ hfind1]
          have hfl : (removeFavorite user.id spotId (addFavorite user.id spotId p)).favorites
              = (p.favorites ++ [spotId]).filter (fun y => !(y == spotId)) := by
            simp [addFavorite, removeFavorite, hpu]
          rw [hfl, hfavs]
          simp only [List.mem_filter, List.mem_append, List.mem_singleton,
            Bool.not_eq_true', beq_eq_false_iff_ne]
          constructor
          · rintro ⟨hx | rfl, hxs⟩
            · exact hx
            · exact absurd rfl hxs
          · intro hx
            refine ⟨Or.inl hx, ?_⟩
            intro hxe
            exact hmem (hxe ▸ hx)

/-- Witness for C9: a concrete authenticated user with an empty
database; both the return-value characterisation and the double-toggle
restoration hold. -/
theorem toggle_favorite_spot_spec_witness :
    (∃ b db', toggleFavoriteSpot [] ⟨1, true⟩ 7 = (some b, db')
        ∧ (b = true ↔ 7 ∈ favoritesOf db' 1))
    ∧ (7 ∈ favoritesOf
          (toggleFavoriteSpot (toggleFavoriteSpot [] ⟨1, true⟩ 7).2 ⟨1, true⟩ 7).2 1
        ↔ 7 ∈ favoritesOf [] 1) := by
  have h := (toggle_favorite_spot_spec [] ⟨1, true⟩ 7).2 rfl
  exact ⟨h.1, h.2 7⟩

section ReviewLemmas

theorem reviewInv_append (db : List ReviewRow) (spotId userId rating newId : ℤ)
    (hinv : reviewInv db) (hfresh : ∀ r ∈ db, r.id ≠ newId)
    (hval : ratingValid rating = true)
    (hnodup : reviewExistsFor db spotId userId = false) :
    reviewInv (db ++ [⟨newId, spotId, userId, rating⟩]) := by
  obtain ⟨hr, hpw, hid⟩ := hinv
  have hval' : 1 ≤ rating ∧ rating ≤ 5 := by simpa [ratingValid] using hval
  have hnd : ∀ r ∈ db, ¬(r.spotId = spotId ∧ r.userId = userId) := by
    intro r hrm hcontra
    have hx : reviewExistsFor db spotId userId = true := by
      unfold reviewExistsFor
      exact List.any_eq_true.mpr ⟨r, hrm, by simp [hcontra.1, hcontra.2]⟩
    simp [hnodup] at hx
  refine ⟨?_, ?_, ?_⟩
  · intro r' hr'
    rcases List.mem_append.mp hr' with h | h
    · exact hr r' h
    · rcases List.mem_singleton.mp h with rfl
      exact hval'
  · refine List.pairwise_append.mpr ⟨hpw, by simp, ?_⟩
    intro a ha b hb
    rcases List.mem_singleton.mp hb with rfl
    exact hnd a ha
  · rw [List.map_append]
    refine List.Nodup.append hid (by simp) ?_
    intro a ha hb
    simp only [List.map_cons, List.map_nil, List.mem_singleton] at hb
    subst hb
    rcases List.mem_map.mp ha with ⟨r, hrm, hrid⟩
    exact hfresh r hrm hrid

theorem reviewInv_adminUpdate (db : List ReviewRow)
    (targetId spotId userId rating : ℤ) (hinv : reviewInv db) :
    reviewInv (reviewAdminUpdate db targetId spotId userId rating) := by
  obtain ⟨hr, hpw, hid⟩ := hinv
  unfold reviewAdminUpdate
  by_cases h404 : (db.find? (fun r => r.id == targetId)).isNone
  · rw [if_pos h404]
    exact ⟨hr, hpw, hid⟩
  · rw [if_neg h404]
    by_cases hval : ratingValid rating = true
    · rw [if_neg (by simp [hval])]
      by_cases hdup : db.any (fun r => !(r.id == targetId)
          && r.spotId == spotId && r.userId == userId) = true
      · rw [if_pos hdup]
        exact ⟨hr, hpw, hid⟩
      · rw [if_neg hdup]
        have hval' : 1 ≤ rating ∧ rating ≤ 5 := by simpa [ratingValid] using hval
        have hdup' : ∀ r ∈ db, r.id ≠ targetId →
            ¬(r.spotId = spotId ∧ r.userId = userId) := by
          intro r hrm hne hcontra
          exact hdup (List.any_eq_true.mpr
            ⟨r, hrm, by simp [hcontra.1, hcontra.2, hne]⟩)
        have hidpw : db.Pairwise (fun a b => a.id ≠ b.id) :=
          List.pairwise_map.mp hid
        refine ⟨?_, ?_, ?_⟩
        · intro r' hr'
          rcases List.mem_map.mp hr' with ⟨r, hrm, rfl⟩
          by_cases ht : (r.id == targetId) = true
          · rw [if_pos ht]
            exact hval'
          · rw [if_neg ht]
            exact hr r hrm
        · rw [List.pairwise_map]
          refine (hpw.and hidpw).imp_of_mem ?_
          intro a b ha hb hab
          obtain ⟨hkey, hne⟩ := hab
          by_cases hat : (a.id == targetId) = true <;>
            by_cases hbt : (b.id == targetId) = true
          · have ha' : a.id = targetId := by simpa using hat
            have hb' : b.id = targetId := by simpa using hbt
            exact absurd (ha'.trans hb'.symm) hne
          · rw [if_pos hat, if_neg hbt]
            intro hcontra
            exact hdup' b hb (by simpa using hbt)
              ⟨hcontra.1.symm, hcontra.2.symm⟩
          · rw [if_neg hat, if_pos hbt]
            intro hcontra
            exact hdup' a ha (by simpa using hat) ⟨hcontra.1, hcontra.2⟩
          · rw [if_neg hat, if_neg hbt]
            exact hkey
        · have hmap : List.map (fun r => r.id) (db.map (fun r =>
              if r.id == targetId then
                { r with spotId := spotId, userId := userId, rating := rating }
              else r)) = db.map (fun r => r.id) := by
            rw [List.map_map]
            congr 1
            funext r
            by_cases ht : (r.id == targetId) = true <;>
              simp [Function.comp, ht]
          rw [hmap]
          exact hid
    · rw [if_pos (by simp [Bool.eq_false_iff.mpr hval])]
      exact ⟨hr, hpw, hid⟩

theorem reviewInv_delete (db : List ReviewRow) (ids : List ℤ)
    (hinv : reviewInv db) : reviewInv (reviewAdminDelete db ids) := by
  obtain ⟨hr, hpw, hid⟩ := hinv
  unfold reviewAdminDelete
  refine ⟨?_, ?_, ?_⟩
  · intro r hrm
    exact hr r (List.mem_of_mem_filter hrm)
  · exact hpw.sublist (List.filter_sublist db)
  · exact List.Nodup.sublist ((List.filter_sublist db).map _) hid

theorem reviewInv_insert_op (db : List ReviewRow)
    (op : List ReviewRow → ℤ → ℤ → ℤ → ℤ → List ReviewRow)
    (hop : ∀ d s u ra n, op d s u ra n =
      (if !ratingValid ra then d
       else if reviewExistsFor d s u then d
       else d ++ [⟨n, s, u, ra⟩]))
    (spotId userId rating newId : ℤ)
    (hinv : reviewInv db) (hfresh : ∀ r ∈ db, r.id ≠ newId) :
    reviewInv (op db spotId userId rating newId) := by
  rw [hop]
  cases hval : ratingValid rating with
  | false =>
    rw [if_pos (by simp [hval])]
    exact hinv
  | true =>
    rw [if_neg (by simp [hval])]
    cases hex : reviewExistsFor db spotId userId with
    | true =>
      rw [if_pos rfl]
      exact hinv
    | false =>
      rw [if_neg (by simp)]
      exact reviewInv_append db spotId userId rating newId hinv hfresh hval hex

end ReviewLemmas

/-- C10: every stored review has a rating in `1..5` and every
(spot, user) pair has at most one review; the invariant (together with
primary-key uniqueness) is preserved by every review-creating or
review-updating operation of the program — `add_review`,
`add_review_api`, the admin create/update views, and deletions. -/
theorem review_invariants (db : List ReviewRow) (hinv : reviewInv db) :
    (∀ spotId userId rating newId, (∀ r ∈ db, r.id ≠ newId) →
        reviewInv (add_review db spotId userId rating newId))
    ∧ (∀ spotId userId rating newId, (∀ r ∈ db, r.id ≠ newId) →
        reviewInv (add_review_api db spotId userId rating newId))
    ∧ (∀ spotId userId rating newId, (∀ r ∈ db, r.id ≠ newId) →
        reviewInv (reviewAdminCreate db spotId userId rating newId))
    ∧ (∀ targetId spotId userId rating,
        reviewInv (reviewAdminUpdate db targetId spotId userId rating))
    ∧ (∀ ids, reviewInv (reviewAdminDelete db ids))
    ∧ (∀ r ∈ db, 1 ≤ r.rating ∧ r.rating ≤ 5)
    ∧ db.Pairwise (fun a b => ¬(a.spotId = b.spotId ∧ a.userId = b.userId)) := by
  refine ⟨?_, ?_, ?_, ?_, ?_, hinv.1, hinv.2.1⟩
  · intro spotId userId rating newId hfresh
    exact reviewInv_insert_op db add_review (fun _ _ _ _ _ => rfl)
      spotId userId rating newId hinv hfresh
  · intro spotId userId rating newId hfresh
    exact reviewInv_insert_op db add_review_api (fun _ _ _ _ _ => rfl)
      spotId userId rating newId hinv hfresh
  · intro spotId userId rating newId hfresh
    exact reviewInv_insert_op db reviewAdminCreate (fun _ _ _ _ _ => rfl)
      spotId userId rating newId hinv hfresh
  · intro targetId spotId userId rating
    exact reviewInv_adminUpdate db targetId spotId userId rating hinv
  · intro ids
    exact reviewInv_delete db ids hinv

/-- Witness for C10 at the empty database and one concrete insertion. -/
theorem review_invariants_witness :
    reviewInv ([] : List ReviewRow)
    ∧ reviewInv (add_review [] 1 2 5 10) := by
  have hempty : reviewInv ([] : List ReviewRow) := by
    refine ⟨?_, ?_, ?_⟩ <;> simp [reviewInv]
  exact ⟨hempty, (review_invariants [] hempty).1 1 2 5 10 (by simp)⟩

/-- C6: whenever the LLM API call fails in any way (missing key, HTTP
error, non-JSON response, malformed structure, unparsable content), the
API scorer returns the empty score mapping, and
`order_spots_by_relevance` falls back to the heuristic scorer: with all
fallback scores zero it returns the input spots unchanged with source
`'none'`; with some positive fallback score the result carries source
`'fallback'` and exactly the fallback scores. -/
theorem api_failure_fallback (api : ApiOutcome) (hfail : api.isFailure = true)
    (now : ℚ) (spots : List SpotRec) (u : UserRec) (db : List InteractionRow)
    (hauth : u.isAuthenticated = true) (hspots : spots ≠ [])
    (hint : interactionsFor db u.id spots ≠ []) :
    requestScoresFromOpenai api = []
    ∧ ((∀ p ∈ fallbackScores now (interactionsFor db u.id spots), p.2 ≤ 0) →
        order_spots_by_relevance now spots (some u) db api
          = ⟨spots, sourceNone, [], []⟩)
    ∧ ((∃ p ∈ fallbackScores now (interactionsFor db u.id spots), 0 < p.2) →
        (order_spots_by_relevance now spots (some u) db api).source
            = sourceFallback
        ∧ (order_spots_by_relevance now spots (some u) db api).scores
            = fallbackScores now (interactionsFor db u.id spots)) := by
  have hreq : requestScoresFromOpenai api = [] := by
    cases api with
    | ok items => simp [ApiOutcome.isFailure] at hfail
    | noApiKey => rfl
    | httpError => rfl
    | notJson => rfl
    | badStructure => rfl
    | contentNotJson => rfl
  have hempty : spots.isEmpty = false := by
    cases spots with
    | nil => exact absurd rfl hspots
    | cons a t => rfl
  have huser : userUnusable (some u) = false := by
    simp [userUnusable, hauth]
  have hintE : (interactionsFor db u.id spots).isEmpty = false := by
    cases hc : interactionsFor db u.id spots with
    | nil => exact absurd hc hint
    | cons a t => rfl
  have horder : order_spots_by_relevance now spots (some u) db api
      = (if (fallbackScores now (interactionsFor db u.id spots)).any
            (fun p => decide (0 < p.2)) then
          sortAndBuild spots (fallbackScores now (interactionsFor db u.id spots))
            sourceFallback
        else ⟨spots, sourceNone, [], []⟩) := by
    unfold order_spots_by_relevance
    rw [hempty, huser]
    simp only [Bool.or_self, Bool.false_eq_true, if_false]
    rw [hintE]
    simp only [Bool.false_eq_true, if_false]
    rw [hreq]
    simp only [List.isEmpty_nil, Bool.not_true, Bool.false_eq_true, if_false]
  refine ⟨hreq, ?_, ?_⟩
  · intro hall
    have hany : (fallbackScores now (interactionsFor db u.id spots)).any
        (fun p => decide (0 < p.2)) = false := by
      rw [Bool.eq_false_iff]
      intro hx
      rcases List.any_eq_true.mp hx with ⟨p, hp, hdec⟩
      exact absurd (of_decide_eq_true hdec) (not_lt.mpr (hall p hp))
    rw [horder, if_neg (by simp [hany])]
  · intro hex
    rcases hex with ⟨p, hp, hlt⟩
    have hany : (fallbackScores now (interactionsFor db u.id spots)).any
        (fun p => decide (0 < p.2)) = true :=
      List.any_eq_true.mpr ⟨p, hp, decide_eq_true hlt⟩
    rw [horder, if_pos hany]
    exact ⟨rfl, rfl⟩

/-- Witness for C6 at a concrete failing outcome (`httpError`), one
spot, an authenticated user and one interaction whose fallback score is
positive. -/
theorem api_failure_fallback_witness :
    requestScoresFromOpenai ApiOutcome.httpError = []
    ∧ (order_spots_by_relevance 0 [⟨2, 0⟩] (some ⟨1, true⟩)
          [⟨1, 2, 1, 0, 0⟩] ApiOutcome.httpError).source = sourceFallback
    ∧ (order_spots_by_relevance 0 [⟨2, 0⟩] (some ⟨1, true⟩)
          [⟨1, 2, 1, 0, 0⟩] ApiOutcome.httpError).scores
        = fallbackScores 0 (interactionsFor [⟨1, 2, 1, 0, 0⟩] 1 [⟨2, 0⟩]) := by
  have hscore : computeFallbackScore 0 ⟨1, 2, 1, 0, 0⟩ = 5 := by
    unfold computeFallbackScore
    norm_num [max_def, min_def]
  have hpos : (0 : ℚ) < computeFallbackScore 0 ⟨1, 2, 1, 0, 0⟩ := by
    rw [hscore]
    norm_num
  have h := api_failure_fallback ApiOutcome.httpError rfl 0 [⟨2, 0⟩] ⟨1, true⟩
    [⟨1, 2, 1, 0, 0⟩] rfl (List.cons_ne_nil _ _) (List.cons_ne_nil _ _)
  have h2 := h.2.2 ⟨(2, computeFallbackScore 0 ⟨1, 2, 1, 0, 0⟩),
    List.mem_singleton.mpr rfl, hpos⟩
  exact ⟨h.1, h2.1, h2.2⟩

/-- C2: the removal migration deletes the three AI models and
src/spots/models.py defines none of them, but the recommendation
subsystem is not deleted entirely: the service layer, the homepage
relevance ordering and the admin routes still import and serve the
removed models — `spots/services/homepage.py` imports
`UserRecommendationScore` from `..models`, `recommendation_jobs.py`
imports `RecommendationJobLog`, `services/__init__.py` still exports
`compute_and_store_all_user_scores`, and `/manage/recommendations/...`
routes remain wired — so importing the app fails against the
post-migration models module. -/
theorem ai_removal_left_dangling_imports :
    (∀ m ∈ migration0009DeletedModels, m ∉ modelsPyModelNames)
    ∧ r"UserRecommendationScore" ∈ homepageModelImports
    ∧ r"UserRecommendationScore" ∉ modelsPyModelNames
    ∧ r"RecommendationJobLog" ∈ recommendationJobsModelImports
    ∧ r"compute_and_store_all_user_scores" ∈ servicesInitExports
    ∧ r"admin_recommendation_scores" ∈ adminRoutes.map (fun r => r.urlName) := by
  decide

section CrawlerLemmas

theorem normalizeUrl_fragment (env : WebEnv) (base : Url) (href : String)
    (nurl : Url) (h : normalizeUrl env base href = some nurl) :
    nurl.fragment = emptyStr := by
  unfold normalizeUrl at h
  split_ifs at h
  all_goals first
  | exact Option.noConfusion h
  | rw [← Option.some.inj h]

theorem normalizeUrl_skips (env : WebEnv) (base : Url) (href : String)
    (hskip : href = emptyStr ∨ href.trim.startsWith hashMarkStr
      ∨ href.trim.startsWith mailtoStr ∨ href.trim.startsWith telStr
      ∨ href.trim.toLower.startsWith javascriptStr) :
    normalizeUrl env base href = none := by
  unfold normalizeUrl
  by_cases h0 : href = emptyStr
  · rw [if_pos h0]
  · rw [if_neg h0]
    rcases hskip with h | h | h | h
    · exact absurd h h0
    · rw [if_pos (by simp [h])]
    · rw [if_pos (by simp [h])]
    · rcases h with h | h
      · rw [if_pos (by simp [h])]
      · rw [if_pos (by simp [h])]

theorem processLinks_queue_sub (env : WebEnv) (origin : String × String)
    (includeP excludeP : Option (String → Bool)) (pageUrl : Url)
    (visited : List Url) :
    ∀ (links : List (String × String)) (queue : List Url)
      (edges : List (Url × Url × String)) (u : Url),
      u ∈ (processLinks env origin includeP excludeP pageUrl visited
          links queue edges).1 →
      u ∈ queue
        ∨ (u.scheme = origin.1 ∧ u.netloc = origin.2 ∧ u.fragment = emptyStr) := by
  intro links
  induction links with
  | nil =>
    intro queue edges u hu
    exact Or.inl hu
  | cons l rest ih =>
    obtain ⟨href, text⟩ := l
    intro queue edges u hu
    rw [processLinks] at hu
    cases hnorm : normalizeUrl env pageUrl href with
    | none =>
      rw [hnorm] at hu
      exact ih queue edges u hu
    | some nurl =>
      rw [hnorm] at hu
      simp only at hu
      split at hu
      · exact ih queue edges u hu
      · rename_i horig
        push_neg at horig
        split at hu
        all_goals
          split at hu
          · exact ih queue edges u hu
          · split at hu
            · exact ih queue edges u hu
            · rcases ih _ _ u hu with hq | hso
              · split at hq
                · rcases List.mem_append.mp hq with hq2 | hq2
                  · exact Or.inl hq2
                  · rcases List.mem_singleton.mp hq2 with rfl
                    exact Or.inr ⟨horig.1, horig.2,
                      normalizeUrl_fragment env pageUrl href u hnorm⟩
                · exact Or.inl hq
              · exact Or.inr hso

end CrawlerLemmas

section CrawlLoopLemmas

variable (env : WebEnv) (origin : String × String)
  (includeP excludeP : Option (String → Bool)) (maxPages : ℕ)

theorem crawlLoop_step_full (url : Url) (rest visited : List Url)
    (titles : List (Url × String)) (edges : List (Url × Url × String))
    (hfull : maxPages ≤ visited.length) :
    crawlLoop env origin includeP excludeP maxPages (url :: rest) visited
        titles edges
      = (visited, titles, edges) := by
  rw [crawlLoop.eq_def]
  dsimp only
  rw [dif_pos hfull]

theorem crawlLoop_step_mem (url : Url) (rest visited : List Url)
    (titles : List (Url × String)) (edges : List (Url × Url × String))
    (hfull : ¬ maxPages ≤ visited.length) (hmem : url ∈ visited) :
    crawlLoop env origin includeP excludeP maxPages (url :: rest) visited
        titles edges
      = crawlLoop env origin includeP excludeP maxPages rest visited
          titles edges := by
  rw [crawlLoop.eq_def]
  dsimp only
  rw [dif_neg hfull, if_pos hmem]

theorem crawlLoop_step_fetchFail (url : Url) (rest visited : List Url)
    (titles : List (Url × String)) (edges : List (Url × Url × String))
    (hfull : ¬ maxPages ≤ visited.length) (hmem : url ∉ visited)
    (hresp : (!(env.fetch url).fetchOk || decide (400 ≤ (env.fetch url).statusCode)
        || !containsTextHtml (env.fetch url).contentType
        || !(env.fetch url).parseOk) = true) :
    crawlLoop env origin includeP excludeP maxPages (url :: rest) visited
        titles edges
      = crawlLoop env origin includeP excludeP maxPages rest (visited ++ [url])
          titles edges := by
  rw [crawlLoop.eq_def]
  dsimp only
  rw [dif_neg hfull, if_neg hmem, if_pos hresp]

theorem crawlLoop_step_go (url : Url) (rest visited : List Url)
    (titles : List (Url × String)) (edges : List (Url × Url × String))
    (hfull : ¬ maxPages ≤ visited.length) (hmem : url ∉ visited)
    (hresp : ¬ (!(env.fetch url).fetchOk
        || decide (400 ≤ (env.fetch url).statusCode)
        || !containsTextHtml (env.fetch url).contentType
        || !(env.fetch url).parseOk) = true) :
    crawlLoop env origin includeP excludeP maxPages (url :: rest) visited
        titles edges
      = crawlLoop env origin includeP excludeP maxPages
          (processLinks env origin includeP excludeP url (visited ++ [url])
            (env.fetch url).links rest edges).1
          (visited ++ [url])
          (titlesInsert titles url (pageTitle (env.fetch url) url))
          (processLinks env origin includeP excludeP url (visited ++ [url])
            (env.fetch url).links rest edges).2 := by
  rw [crawlLoop.eq_def]
  dsimp only
  rw [dif_neg hfull, if_neg hmem, if_neg hresp]

theorem nodup_append_one {α : Type} (l : List α) (a : α) (h : l.Nodup)
    (ha : a ∉ l) : (l ++ [a]).Nodup := by
  rw [List.nodup_append]
  exact ⟨h, List.nodup_singleton a,
    fun x hx hx1 => ha ((List.mem_singleton.mp hx1) ▸ hx)⟩

theorem crawlLoop_extends :
    ∀ (queue visited : List Url) (titles : List (Url × String))
      (edges : List (Url × Url × String)),
      ∃ t, (crawlLoop env origin includeP excludeP maxPages queue visited
          titles edges).1 = visited ++ t := by
  intro queue visited titles edges
  induction queue, visited, titles, edges
    using crawlLoop.induct env origin includeP excludeP maxPages with
  | case1 visited titles edges =>
    rw [crawlLoop.eq_def]
    exact ⟨[], (List.append_nil visited).symm⟩
  | case2 visited titles edges url rest hfull =>
    rw [crawlLoop_step_full env origin includeP excludeP maxPages url rest
      visited titles edges hfull]
    exact ⟨[], (List.append_nil visited).symm⟩
  | case3 visited titles edges url rest hfull hmem ih =>
    rw [crawlLoop_step_mem env origin includeP excludeP maxPages url rest
      visited titles edges hfull hmem]
    exact ih
  | case4 visited titles edges url rest hfull hmem visited' resp hresp ih =>
    rw [crawlLoop_step_fetchFail env origin includeP excludeP maxPages url rest
      visited titles edges hfull hmem hresp]
    rcases ih with ⟨t, ht⟩
    refine ⟨[url] ++ t, ?_⟩
    rw [← List.append_assoc]
    exact ht
  | case5 visited titles edges url rest hfull hmem visited' resp hresp titles' next ih =>
    rw [crawlLoop_step_go env origin includeP excludeP maxPages url rest
      visited titles edges hfull hmem hresp]
    rcases ih with ⟨t, ht⟩
    refine ⟨[url] ++ t, ?_⟩
    rw [← List.append_assoc]
    exact ht

theorem crawlLoop_invariant (Q : Url → Prop)
    (hQ : ∀ u, u.scheme = origin.1 ∧ u.netloc = origin.2
        ∧ u.fragment = emptyStr → Q u) :
    ∀ (queue visited : List Url) (titles : List (Url × String))
      (edges : List (Url × Url × String)),
      visited.Nodup → visited.length ≤ maxPages →
      (∀ u ∈ visited, Q u) → (∀ u ∈ queue, Q u) →
      (crawlLoop env origin includeP excludeP maxPages queue visited
          titles edges).1.Nodup
      ∧ (crawlLoop env origin includeP excludeP maxPages queue visited
          titles edges).1.length ≤ maxPages
      ∧ (∀ u ∈ (crawlLoop env origin includeP excludeP maxPages queue visited
          titles edges).1, Q u) := by
  intro queue visited titles edges
  induction queue, visited, titles, edges
    using crawlLoop.induct env origin includeP excludeP maxPages with
  | case1 visited titles edges =>
    intro hnd hlen hv _hq
    rw [crawlLoop.eq_def]
    exact ⟨hnd, hlen, hv⟩
  | case2 visited titles edges url rest hfull =>
    intro hnd hlen hv _hq
    rw [crawlLoop_step_full env origin includeP excludeP maxPages url rest
      visited titles edges hfull]
    exact ⟨hnd, hlen, hv⟩
  | case3 visited titles edges url rest hfull hmem ih =>
    intro hnd hlen hv hq
    rw [crawlLoop_step_mem env origin includeP excludeP maxPages url rest
      visited titles edges hfull hmem]
    exact ih hnd hlen hv (fun u hu => hq u (List.mem_cons_of_mem _ hu))
  | case4 visited titles edges url rest hfull hmem visited' resp hresp ih =>
    intro hnd hlen hv hq
    rw [crawlLoop_step_fetchFail env origin includeP excludeP maxPages url rest
      visited titles edges hfull hmem hresp]
    refine ih (nodup_append_one visited url hnd hmem) ?_ ?_
      (fun u hu => hq u (List.mem_cons_of_mem _ hu))
    · show (visited ++ [url]).length ≤ maxPages
      simp only [List.length_append, List.length_singleton]
      omega
    · show ∀ u ∈ visited ++ [url], Q u
      intro u hu
      rcases List.mem_append.mp hu with h | h
      · exact hv u h
      · rcases List.mem_singleton.mp h with rfl
        exact hq u (List.mem_cons_self _ _)
  | case5 visited titles edges url rest hfull hmem visited' resp hresp titles' next ih =>
    intro hnd hlen hv hq
    rw [crawlLoop_step_go env origin includeP excludeP maxPages url rest
      visited titles edges hfull hmem hresp]
    refine ih (nodup_append_one visited url hnd hmem) ?_ ?_ ?_
    · show (visited ++ [url]).length ≤ maxPages
      simp only [List.length_append, List.length_singleton]
      omega
    · show ∀ u ∈ visited ++ [url], Q u
      intro u hu
      rcases List.mem_append.mp hu with h | h
      · exact hv u h
      · rcases List.mem_singleton.mp h with rfl
        exact hq u (List.mem_cons_self _ _)
    · show ∀ u ∈ (processLinks env origin includeP excludeP url (visited ++ [url])
          (env.fetch url).links rest edges).1, Q u
      intro u hu
      rcases processLinks_queue_sub env origin includeP excludeP url
        (visited ++ [url]) (env.fetch url).links rest edges u hu with h | h
      · exact hq u (List.mem_cons_of_mem _ h)
      · exact hQ u h

end CrawlLoopLemmas

/-- C7: the flow-chart crawler is a bounded same-origin BFS.  The
embedded loop dequeues FIFO (head of the queue, appends at the tail —
the deque discipline of the source); this theorem states the visit
behaviour: the visited list never repeats a URL, has at most
`max_pages` entries, starts with the base URL whenever `max_pages` is
positive, and contains, besides the base URL itself, only URLs whose
scheme and host equal the base URL's origin with the fragment dropped;
moreover hrefs that are empty, anchor-only, `mailto:`, `tel:` or
`javascript:` are never normalised into crawl targets.  Totality of
`crawl` (via the `(max_pages - |visited|, |queue|)` measure) is the
termination claim. -/
theorem crawl_spec (env : WebEnv) (baseUrl : Url) (maxPages : ℕ)
    (includeP excludeP : Option (String → Bool)) :
    (crawl env baseUrl maxPages includeP excludeP).1.Nodup
    ∧ (crawl env baseUrl maxPages includeP excludeP).1.length ≤ maxPages
    ∧ (∀ u ∈ (crawl env baseUrl maxPages includeP excludeP).1,
        u = baseUrl ∨ (u.scheme = baseUrl.scheme ∧ u.netloc = baseUrl.netloc
          ∧ u.fragment = emptyStr))
    ∧ (0 < maxPages →
        (crawl env baseUrl maxPages includeP excludeP).1.head? = some baseUrl)
    ∧ (∀ base href, (href = emptyStr ∨ href.trim.startsWith hashMarkStr
        ∨ href.trim.startsWith mailtoStr ∨ href.trim.startsWith telStr
        ∨ href.trim.toLower.startsWith javascriptStr) →
        normalizeUrl env base href = none) := by
  have hbase := crawlLoop_invariant env (baseUrl.scheme, baseUrl.netloc)
    includeP excludeP maxPages
    (fun u => u = baseUrl ∨ (u.scheme = baseUrl.scheme
      ∧ u.netloc = baseUrl.netloc ∧ u.fragment = emptyStr))
    (fun u h => Or.inr h)
    [baseUrl] [] [] [] List.nodup_nil (by simp) (by simp)
    (by
      intro u hu
      rcases List.mem_singleton.mp hu with rfl
      exact Or.inl rfl)
  refine ⟨hbase.1, hbase.2.1, hbase.2.2, ?_, ?_⟩
  · intro hpos
    have hext := crawlLoop_extends env (baseUrl.scheme, baseUrl.netloc)
      includeP excludeP maxPages
    unfold crawl
    rw [crawlLoop.eq_def]
    dsimp only
    rw [dif_neg (by simp only [List.length_nil]; omega),
      if_neg (List.not_mem_nil baseUrl)]
    split
    · obtain ⟨t, ht⟩ := hext [] ([] ++ [baseUrl]) [] []
      rw [ht]
      simp
    · obtain ⟨t, ht⟩ := hext
        (processLinks env (baseUrl.scheme, baseUrl.netloc) includeP excludeP
          baseUrl ([] ++ [baseUrl]) (env.fetch baseUrl).links [] []).1
        ([] ++ [baseUrl])
        (titlesInsert [] baseUrl (pageTitle (env.fetch baseUrl) baseUrl))
        (processLinks env (baseUrl.scheme, baseUrl.netloc) includeP excludeP
          baseUrl ([] ++ [baseUrl]) (env.fetch baseUrl).links [] []).2
      rw [ht]
      simp
  · intro base href hskip
    exact normalizeUrl_skips env base href hskip

/-- Witness for C7: a concrete environment whose fetches always fail;
with `max_pages = 5` the crawl starts at (and here, only visits) the
base URL, and the empty href is skipped by normalisation. -/
theorem crawl_spec_witness :
    (crawl ⟨fun _ => ⟨false, 500, emptyStr, false, emptyStr, []⟩, fun b _ => b⟩
        ⟨r"http", r"example.test", slashStr, emptyStr, emptyStr⟩
        5 none none).1.head?
      = some ⟨r"http", r"example.test", slashStr, emptyStr, emptyStr⟩
    ∧ normalizeUrl
        ⟨fun _ => ⟨false, 500, emptyStr, false, emptyStr, []⟩, fun b _ => b⟩
        ⟨r"http", r"example.test", slashStr, emptyStr, emptyStr⟩ emptyStr
      = none := by
  refine ⟨(crawl_spec _ _ 5 none none).2.2.2.1 (by norm_num), ?_⟩
  exact (crawl_spec ⟨fun _ => ⟨false, 500, emptyStr, false, emptyStr, []⟩,
      fun b _ => b⟩ ⟨r"http", r"example.test", slashStr, emptyStr, emptyStr⟩
      5 none none).2.2.2.2
    ⟨r"http", r"example.test", slashStr, emptyStr, emptyStr⟩ emptyStr
    (Or.inl rfl)
